import Mathlib

/-!
Verification of the opentile tiling core.

Shallow embedding of the tile-extraction logic in
`opentile/phillips_tiff_tiler.py`, `opentile/svs_tiler.py` and
`opentile/interface.py`.  Byte strings are modelled as `List Nat`
(each element a byte value), file contents as the byte list the shared
file handle reads from, and the fallible tile-fetch path returns
`Except TileError`.
-/

namespace Opentile

/-- Error conditions, named after the spec's error taxonomy.  The source
signals the no-valid-frame condition with a bare `ValueError`
(`PhillipsTiffTiledPage.blank_tile`); the other two constructors exist so
that spec-level claims about `OutOfBoundsError` and `MalformedFrameError`
are statable — the source never raises either. -/
inductive TileError where
  | noValidFrame
  | outOfBounds
  | malformedFrame
deriving DecidableEq, Repr

/-- Modelled from the spec: `opentile/geometry.py` (`SizeMm`) is not under
src/.  The spec's data model gives `pixel_spacing_mm: (x, y)` as a pair of
physical lengths, with scalar arithmetic elementwise. -/
structure SizeMm where
  w : ℚ
  h : ℚ
deriving DecidableEq, Repr

/-- Modelled from the spec (see `SizeMm`): scalar multiplication
`SizeMm * k` acts elementwise. -/
def SizeMm.scale (s : SizeMm) (k : ℚ) : SizeMm := ⟨s.w * k, s.h * k⟩

/-- Index of the first occurrence of the two-byte JPEG start-of-scan marker
`0xFF 0xDA`, as computed by `frame.find(bytes([0xFF, 0xDA]))` in
`PhillipsTiffTiledPage._add_header` (`none` models Python's `-1`). -/
def findSOS : List Nat → Option Nat
  | a :: b :: rest =>
      if a = 255 ∧ b = 218 then some 0
      else (findSOS (b :: rest)).map (· + 1)
  | _ => none

/-- `PhillipsTiffTiledPage._add_header`: insert the page's JPEG tables,
with their own start/end tags stripped (`jpegtables[2:-2]`), in front of
the start-of-scan marker.  When the marker is absent, Python's `find`
returns `-1` and the slices `frame[0:start_of_scan]` / `frame[start_of_scan:]`
become `frame[0:-1]` / `frame[-1:]`; no exception is raised. -/
def add_header (jpegtables frame : List Nat) : List Nat :=
  let tables := ((jpegtables.drop 2).dropLast).dropLast
  match findSOS frame with
  | some i => frame.take i ++ tables ++ frame.drop i
  | none => frame.dropLast ++ tables ++ frame.drop (frame.length - 1)

/-- Index of the first non-zero entry, as computed by
`next(index for index, datalength in enumerate(...) if datalength != 0)`
in `PhillipsTiffTiledPage.blank_tile` (`none` models `StopIteration`). -/
def findNonzero : List Nat → Option Nat
  | [] => none
  | c :: rest => if c ≠ 0 then some 0 else (findNonzero rest).map (· + 1)

/-- Ceiling division on naturals; `math.ceil(a / b)` for non-negative
integers `a` and positive `b`. -/
def ceilDiv (a b : Nat) : Nat := (a + b - 1) / b

/-- One Phillips tiff page together with the collaborators the source
hands to `PhillipsTiffTiledPage.__init__`: the parsed TIFF page fields
(`tilewidth`, `tilelength`, `shape`, `dataoffsets`, `databytecounts`,
`jpegtables`), the shared file handle (modelled by the byte list `file`
it reads from), the base level width `base_shape.width`, the base mpp, and
the external TurboJPEG `fill_image` operation (`fill`). -/
structure PhillipsPage where
  tilewidth : Nat
  tilelength : Nat
  /-- `page.shape[0]` — image height in pixels. -/
  shape0 : Nat
  /-- `page.shape[1]` — image width in pixels. -/
  shape1 : Nat
  dataoffsets : List Nat
  databytecounts : List Nat
  jpegtables : List Nat
  /-- Contents of the shared file handle. -/
  file : List Nat
  baseWidth : Nat
  baseMpp : SizeMm
  /-- External `TurboJPEG.fill_image` collaborator. -/
  fill : List Nat → List Nat

namespace PhillipsPage

/-- `image_size = Size(page.shape[1], page.shape[0])` — (width, height). -/
def image_size (p : PhillipsPage) : Nat × Nat := (p.shape1, p.shape0)

/-- `tile_size = Size(page.tilewidth, page.tilelength)`. -/
def tile_size (p : PhillipsPage) : Nat × Nat := (p.tilewidth, p.tilelength)

/-- `PhillipsTiffTiledPage.tiled_size`: elementwise ceiling division of
image size by tile size when `tile_size != Size(0, 0)`, else `Size(1, 1)`.
(For a mixed tile size such as `(256, 0)` the Python raises
`ZeroDivisionError`; the theorems only assert this definition where both
components are positive or both are zero.) -/
def tiled_size (p : PhillipsPage) : Nat × Nat :=
  if p.tile_size ≠ (0, 0) then
    (ceilDiv p.image_size.1 p.tile_size.1, ceilDiv p.image_size.2 p.tile_size.2)
  else
    (1, 1)

/-- `self._pyramid_index = int(math.log2(base_shape.width / image_size.width))`.
For `0 < width ≤ base_width` the float computation truncates to
`⌊log2 (base_width / width)⌋`, which equals `Nat.log2` of the integer
quotient. -/
def pyramid_index (p : PhillipsPage) : Nat := Nat.log2 (p.baseWidth / p.shape1)

/-- `self._mpp = base_mpp * pow(2, self.pyramid_index)`. -/
def mpp (p : PhillipsPage) : SizeMm := p.baseMpp.scale (2 ^ p.pyramid_index)

/-- `pixel_spacing`: `return self.mpp * 1000`. -/
def pixel_spacing (p : PhillipsPage) : SizeMm := p.mpp.scale 1000

/-- `PhillipsTiffTiledPage._read_frame`: seek to `dataoffsets[i]` and read
`databytecounts[i]` bytes from the shared file handle. -/
def read_frame (p : PhillipsPage) (i : Nat) : List Nat :=
  (p.file.drop (p.dataoffsets.getD i 0)).take (p.databytecounts.getD i 0)

/-- `PhillipsTiffTiledPage.blank_tile`: take the first frame with non-zero
byte count (`raise ValueError` — the spec's `NoValidFrameError` condition —
when every count is zero), patch its header and pass it to the external
fill operation. -/
def blank_tile (p : PhillipsPage) : Except TileError (List Nat) :=
  match findNonzero p.databytecounts with
  | none => Except.error TileError.noValidFrame
  | some i => Except.ok (p.fill (add_header p.jpegtables (p.read_frame i)))

/-- `PhillipsTiffTiledPage.get_tile`: `frame_index = y * tiled_size.width + x`;
sparse (index past the byte-count table, or zero byte count) yields the
blank tile, otherwise the header-patched frame read. -/
def get_tile (p : PhillipsPage) (pos : Nat × Nat) : Except TileError (List Nat) :=
  let frame_index := pos.2 * p.tiled_size.1 + pos.1
  if frame_index ≥ p.databytecounts.length ∨
      p.databytecounts.getD frame_index 0 = 0 then
    p.blank_tile
  else
    Except.ok (add_header p.jpegtables (p.read_frame frame_index))

end PhillipsPage

/-- `TiledPage.get_tiles` (`opentile/interface.py`): a generator producing,
for each requested position in order, the one-element list
`[self.get_tile(tile)]`.  Each element production can fail independently,
modelled by the per-element `Except`. -/
def get_tiles (p : PhillipsPage) (tiles : List (Nat × Nat)) :
    List (Except TileError (List (List Nat))) :=
  tiles.map (fun t => (p.get_tile t).map (fun b => [b]))

/-- `SvsTiledPage._add_jpeg_tables`: the page's JPEG tables minus the
trailing end tag (`jpegtables[:-2]`), the fixed 16-byte colorspace-fix
marker, then the frame minus its leading start-of-image tag (`frame[2:]`). -/
def svs_add_jpeg_tables (jpegtables frame : List Nat) : List Nat :=
  (jpegtables.dropLast).dropLast ++
    [0xFF, 0xEE, 0x00, 0x0E, 0x41, 0x64, 0x6F, 0x62,
     0x65, 0x00, 0x64, 0x80, 0x00, 0x00, 0x00, 0x00] ++
    frame.drop 2

/-- Modelled from the spec: `opentile/utils.py` (`calculate_mpp`) is not
under src/.  The spec's invariant is
`pixel_spacing_mm = base_pixel_spacing_mm × 2^pyramid_index`, so the mpp of
level `k` is the base mpp scaled by `2^k`. -/
def calculate_mpp (baseMpp : SizeMm) (k : Nat) : SizeMm :=
  baseMpp.scale (2 ^ k)

/-- One Svs tiff page as constructed by `SvsTiledPage.__init__`: the base
mpp and the pyramid index computed by `calculate_pyramidal_index`
(`opentile/utils.py`, not under src/), kept abstract as a field. -/
structure SvsPage where
  baseMpp : SizeMm
  pyramidIndexValue : Nat

namespace SvsPage

/-- `self._mpp = calculate_mpp(self._base_mpp, self.pyramid_index)`. -/
def mpp (p : SvsPage) : SizeMm := calculate_mpp p.baseMpp p.pyramidIndexValue

/-- `pixel_spacing`: `return self.mpp * 1000`. -/
def pixel_spacing (p : SvsPage) : SizeMm := p.mpp.scale 1000

end SvsPage

/-- `True` exactly when the tile-fetch result carries bytes
(`Except.ok`), mirroring a call that returned without raising. -/
def exceptIsOk : Except TileError (List Nat) → Bool
  | Except.ok _ => true
  | Except.error _ => false

/-- A concrete 2×2-tiled Phillips page: 1×1-pixel tiles over a 2×2-pixel
image, four stored frames of two bytes each (each frame is the bare
start-of-scan marker), JPEG tables whose stripped interior is the single
byte `77`, and the identity as the external fill operation. -/
def pageA : PhillipsPage :=
  { tilewidth := 1
    tilelength := 1
    shape0 := 2
    shape1 := 2
    dataoffsets := [0, 2, 4, 6]
    databytecounts := [2, 2, 2, 2]
    jpegtables := [255, 216, 77, 255, 217]
    file := [255, 218, 255, 218, 255, 218, 255, 218]
    baseWidth := 2
    baseMpp := ⟨1, 1⟩
    fill := id }

/-- A concrete page with the spec's geometry example: image 1000×700,
tiles 256×256. -/
def pageC3 : PhillipsPage :=
  { tilewidth := 256
    tilelength := 256
    shape0 := 700
    shape1 := 1000
    dataoffsets := []
    databytecounts := []
    jpegtables := []
    file := []
    baseWidth := 1000
    baseMpp := ⟨1, 1⟩
    fill := id }

/-- A concrete strip-organized page: `tile_size = (0, 0)`. -/
def pageC3strip : PhillipsPage :=
  { tilewidth := 0
    tilelength := 0
    shape0 := 700
    shape1 := 1000
    dataoffsets := []
    databytecounts := []
    jpegtables := []
    file := []
    baseWidth := 1000
    baseMpp := ⟨1, 1⟩
    fill := id }

/-- A concrete page whose downsample ratio `1000 / 333` is not a power of
two. -/
def pageC4 : PhillipsPage :=
  { tilewidth := 1
    tilelength := 1
    shape0 := 333
    shape1 := 333
    dataoffsets := []
    databytecounts := []
    jpegtables := []
    file := []
    baseWidth := 1000
    baseMpp := ⟨1, 1⟩
    fill := id }

/-- A concrete page on which every frame is sparse (all byte counts 0). -/
def pageZero : PhillipsPage :=
  { tilewidth := 1
    tilelength := 1
    shape0 := 1
    shape1 := 2
    dataoffsets := [0, 0]
    databytecounts := [0, 0]
    jpegtables := [255, 216, 77, 255, 217]
    file := []
    baseWidth := 2
    baseMpp := ⟨1, 1⟩
    fill := id }

/-- A concrete page whose first frame is sparse and whose second frame is
the first valid one. -/
def pageB : PhillipsPage :=
  { tilewidth := 1
    tilelength := 1
    shape0 := 1
    shape1 := 2
    dataoffsets := [0, 0]
    databytecounts := [0, 2]
    jpegtables := [255, 216, 77, 255, 217]
    file := [255, 218]
    baseWidth := 2
    baseMpp := ⟨1, 1⟩
    fill := id }

/-- A concrete page for batch-fetch checks, identical in shape to `pageA`. -/
def pageC9 : PhillipsPage :=
  { tilewidth := 1
    tilelength := 1
    shape0 := 2
    shape1 := 2
    dataoffsets := [0, 2, 4, 6]
    databytecounts := [2, 2, 2, 2]
    jpegtables := [255, 216, 77, 255, 217]
    file := [255, 218, 255, 218, 255, 218, 255, 218]
    baseWidth := 2
    baseMpp := ⟨1, 1⟩
    fill := id }

/-! ## Helper lemmas -/

theorem findSOS_some_marker (l : List Nat) (i : Nat) (h : findSOS l = some i) :
    l[i]? = some 255 ∧ l[i + 1]? = some 218 := by
  induction l generalizing i with
  | nil => simp [findSOS] at h
  | cons a t ih =>
    cases t with
    | nil => simp [findSOS] at h
    | cons b r =>
      rw [findSOS] at h
      by_cases hab : a = 255 ∧ b = 218
      · rw [if_pos hab] at h
        cases h
        simp [hab.1, hab.2]
      · rw [if_neg hab] at h
        cases hfs : findSOS (b :: r) with
        | none => rw [hfs] at h; simp at h
        | some j =>
          rw [hfs] at h
          simp at h
          subst h
          have := ih j hfs
          simpa using this

theorem findSOS_of_first (l : List Nat) (i : Nat)
    (h1 : l[i]? = some 255) (h2 : l[i + 1]? = some 218)
    (hmin : ∀ j, j < i → ¬(l[j]? = some 255 ∧ l[j + 1]? = some 218)) :
    findSOS l = some i := by
  induction l generalizing i with
  | nil => simp at h1
  | cons a t ih =>
    cases t with
    | nil =>
      rcases i with _ | i' <;> simp at h1 h2
    | cons b r =>
      rw [findSOS]
      by_cases hab : a = 255 ∧ b = 218
      · rw [if_pos hab]
        rcases i with _ | i'
        · rfl
        · exact absurd (by simp [hab.1, hab.2]) (hmin 0 (Nat.succ_pos _))
      · rw [if_neg hab]
        rcases i with _ | i'
        · exact absurd ⟨by simpa using h1, by simpa using h2⟩ hab
        · have ht : findSOS (b :: r) = some i' := by
            apply ih
            · simpa using h1
            · simpa using h2
            · intro j hj hmark
              exact hmin (j + 1) (Nat.succ_lt_succ hj) (by simpa using hmark)
          rw [ht]
          rfl

theorem findSOS_eq_none (l : List Nat)
    (h : ∀ i, i < l.length → ¬(l[i]? = some 255 ∧ l[i + 1]? = some 218)) :
    findSOS l = none := by
  cases hfs : findSOS l with
  | none => rfl
  | some i =>
    obtain ⟨h1, h2⟩ := findSOS_some_marker l i hfs
    have hi : i < l.length := by
      by_contra hge
      rw [List.getElem?_eq_none (by omega)] at h1
      exact Option.noConfusion h1
    exact absurd ⟨h1, h2⟩ (h i hi)

theorem findNonzero_eq_none (l : List Nat) (h : ∀ c ∈ l, c = 0) :
    findNonzero l = none := by
  induction l with
  | nil => rfl
  | cons c rest ih =>
    have hc : c = 0 := h c (List.mem_cons_self _ _)
    rw [findNonzero, if_neg (by omega), ih (fun x hx => h x (List.mem_cons_of_mem _ hx))]
    rfl

theorem findNonzero_of_first (l : List Nat) (i : Nat)
    (hi : l.getD i 0 ≠ 0) (hmin : ∀ j, j < i → l.getD j 0 = 0) :
    findNonzero l = some i := by
  induction l generalizing i with
  | nil => simp [List.getD] at hi
  | cons c rest ih =>
    rcases i with _ | i'
    · rw [findNonzero, if_pos (by simpa using hi)]
    · have hc : c = 0 := by simpa using hmin 0 (Nat.succ_pos _)
      rw [findNonzero, if_neg (by omega)]
      have ht : findNonzero rest = some i' := by
        apply ih
        · simpa using hi
        · intro j hj
          simpa using hmin (j + 1) (Nat.succ_lt_succ hj)
      rw [ht]
      rfl

theorem ceilDiv_eq_ceil (a b : Nat) (hb : 0 < b) :
    (ceilDiv a b : ℤ) = ⌈(a : ℚ) / (b : ℚ)⌉ := by
  have hbq : (0 : ℚ) < (b : ℚ) := by exact_mod_cast hb
  symm
  rw [Int.ceil_eq_iff]
  set n := ceilDiv a b with hn
  have hmul : n * b ≤ a + b - 1 := Nat.div_mul_le_self _ _
  have hlt : a + b - 1 < n * b + b := by
    have := (Nat.div_lt_iff_lt_mul hb).mp (Nat.lt_succ_self n)
    calc a + b - 1 < (n + 1) * b := by simpa [hn, ceilDiv] using this
      _ = n * b + b := by ring
  have hb1 : 1 ≤ b := hb
  have hle : a ≤ n * b := by omega
  have hgt : n * b < a + b := by omega
  constructor
  · rw [lt_div_iff₀ hbq]
    have : ((n : ℚ)) * b < a + b := by exact_mod_cast hgt
    push_cast
    linarith
  · rw [div_le_iff₀ hbq]
    exact_mod_cast hle

/-! ## Claim theorems -/

/-- C1: for every tile coordinate `(x, y)` of a tiled page, `get_tile`
computes `frame_index = y * columns + x`; if that index is at or past the
end of the frame byte-count table, or the byte count there is zero, it
returns the page's blank tile, otherwise the header-patched bytes of the
single contiguous read at `(dataoffsets[frame_index],
databytecounts[frame_index])`. -/
theorem get_tile_locator_spec (p : PhillipsPage) (x y : Nat)
    (_hx : x < p.tiled_size.1) (_hy : y < p.tiled_size.2) :
    (y * p.tiled_size.1 + x ≥ p.databytecounts.length ∨
        p.databytecounts.getD (y * p.tiled_size.1 + x) 0 = 0 →
      p.get_tile (x, y) = p.blank_tile) ∧
    (y * p.tiled_size.1 + x < p.databytecounts.length ∧
        p.databytecounts.getD (y * p.tiled_size.1 + x) 0 ≠ 0 →
      p.get_tile (x, y) = Except.ok (add_header p.jpegtables
        ((p.file.drop (p.dataoffsets.getD (y * p.tiled_size.1 + x) 0)).take
          (p.databytecounts.getD (y * p.tiled_size.1 + x) 0)))) := by
  constructor
  · intro h
    rw [PhillipsPage.get_tile, if_pos h]
  · rintro ⟨h1, h2⟩
    rw [PhillipsPage.get_tile, if_neg (by push_neg; exact ⟨h1, h2⟩)]
    rfl

/-- Witness for C1 on the concrete `pageA` at tile coordinate `(1, 0)`. -/
theorem get_tile_locator_spec_witness :
    (1 < pageA.tiled_size.1 ∧ 0 < pageA.tiled_size.2) ∧
    (0 * pageA.tiled_size.1 + 1 < pageA.databytecounts.length ∧
        pageA.databytecounts.getD (0 * pageA.tiled_size.1 + 1) 0 ≠ 0 →
      pageA.get_tile (1, 0) = Except.ok (add_header pageA.jpegtables
        ((pageA.file.drop
            (pageA.dataoffsets.getD (0 * pageA.tiled_size.1 + 1) 0)).take
          (pageA.databytecounts.getD (0 * pageA.tiled_size.1 + 1) 0)))) :=
  ⟨⟨by decide, by decide⟩,
   (get_tile_locator_spec pageA 1 0 (by decide) (by decide)).2⟩

/-- C2: for every raw frame containing the start-of-scan marker
`0xFF 0xDA`, the table-insertion patcher returns
`frame[0:start_of_scan] ++ jpegtables[2:-2] ++ frame[start_of_scan:]`,
where `start_of_scan` is the first occurrence of the marker. -/
theorem add_header_inserts_tables_spec (jpegtables frame : List Nat) (i : Nat)
    (h1 : frame[i]? = some 255) (h2 : frame[i + 1]? = some 218)
    (hfirst : ∀ j, j < i → ¬(frame[j]? = some 255 ∧ frame[j + 1]? = some 218)) :
    add_header jpegtables frame =
      frame.take i ++ ((jpegtables.drop 2).dropLast.dropLast) ++ frame.drop i := by
  have hfs := findSOS_of_first frame i h1 h2 hfirst
  rw [add_header, hfs]

/-- Witness for C2 at frame `[7, 255, 218, 9]` (marker first occurs at
index 1) and tables `[255, 216, 5, 6, 255, 217]`. -/
theorem add_header_inserts_tables_spec_witness :
    (([7, 255, 218, 9] : List Nat)[1]? = some 255 ∧
        ([7, 255, 218, 9] : List Nat)[2]? = some 218) ∧
    add_header [255, 216, 5, 6, 255, 217] [7, 255, 218, 9] =
      ([7, 255, 218, 9] : List Nat).take 1 ++
        ((([255, 216, 5, 6, 255, 217] : List Nat).drop 2).dropLast.dropLast) ++
        ([7, 255, 218, 9] : List Nat).drop 1 :=
  ⟨⟨by decide, by decide⟩,
   add_header_inserts_tables_spec [255, 216, 5, 6, 255, 217] [7, 255, 218, 9] 1
     (by decide) (by decide) (by decide)⟩

/-- C3: with a non-degenerate tile size the tile grid is the elementwise
ceiling of image size over tile size; with `tile_size = (0, 0)` it is
`(1, 1)`. -/
theorem tiled_size_spec (p : PhillipsPage) :
    (0 < p.tilewidth ∧ 0 < p.tilelength →
      ((p.tiled_size.1 : ℤ) = ⌈(p.shape1 : ℚ) / (p.tilewidth : ℚ)⌉ ∧
       (p.tiled_size.2 : ℤ) = ⌈(p.shape0 : ℚ) / (p.tilelength : ℚ)⌉)) ∧
    (p.tilewidth = 0 ∧ p.tilelength = 0 → p.tiled_size = (1, 1)) := by
  constructor
  · rintro ⟨hw, hl⟩
    have hne : p.tile_size ≠ (0, 0) := by
      rw [PhillipsPage.tile_size]
      intro hcontra
      rw [Prod.mk.injEq] at hcontra
      omega
    rw [PhillipsPage.tiled_size, if_pos hne]
    exact ⟨ceilDiv_eq_ceil _ _ hw, ceilDiv_eq_ceil _ _ hl⟩
  · rintro ⟨hw, hl⟩
    rw [PhillipsPage.tiled_size, if_neg (by simp [PhillipsPage.tile_size, hw, hl])]

/-- Witness for C3: the spec's example `image_size = (1000, 700)`,
`tile_size = (256, 256)` gives `(4, 3)`, and the strip page gives `(1, 1)`. -/
theorem tiled_size_spec_witness :
    (0 < pageC3.tilewidth ∧ 0 < pageC3.tilelength) ∧
    ((pageC3.tiled_size.1 : ℤ) = ⌈(pageC3.shape1 : ℚ) / (pageC3.tilewidth : ℚ)⌉ ∧
     (pageC3.tiled_size.2 : ℤ) = ⌈(pageC3.shape0 : ℚ) / (pageC3.tilelength : ℚ)⌉) ∧
    pageC3.tiled_size = (4, 3) ∧
    pageC3strip.tiled_size = (1, 1) :=
  ⟨⟨by decide, by decide⟩,
   (tiled_size_spec pageC3).1 ⟨by decide, by decide⟩,
   by decide,
   (tiled_size_spec pageC3strip).2 ⟨rfl, rfl⟩⟩

/-- C4 (counterexample): with `base_width = 1000` and `width = 333` —
a ratio that is not a power of two — construction does not fail: the
pyramid index is silently computed as `int(log2(1000 / 333)) = 1`, so no
`GeometryError` is raised. -/
theorem pyramid_index_no_geometry_error_cex :
    pageC4.baseWidth = 1000 ∧ pageC4.shape1 = 333 ∧
    (¬ ∃ k : Nat, pageC4.shape1 * 2 ^ k = pageC4.baseWidth) ∧
    pageC4.pyramid_index = 1 := by
  refine ⟨rfl, rfl, ?_, ?_⟩
  swap
  · show Nat.log2 (1000 / 333) = 1
    norm_num [Nat.log2]
  rintro ⟨k, hk⟩
  have hk' : 333 * 2 ^ k = 1000 := hk
  rcases k with _ | _ | k
  · norm_num at hk'
  · norm_num at hk'
  · have h4 : 2 ^ (k + 2) = 4 * 2 ^ k := by ring
    rw [h4] at hk'
    have h1 : 0 < 2 ^ k := Nat.two_pow_pos k
    have ht : ∀ t : Nat, 0 < t → 333 * (4 * t) = 1000 → False := by
      intro t h0 heq
      omega
    exact ht (2 ^ k) h1 hk'

/-- C4 (amended): the constructor never raises on a non-power-of-two
ratio; it truncates, storing `pyramid_index = ⌊log2(base_width / width)⌋`,
i.e. the unique `k` with `2 ^ k ≤ base_width / width < 2 ^ (k + 1)`. -/
theorem pyramid_index_floor_spec (p : PhillipsPage)
    (hw : 0 < p.shape1) (hb : p.shape1 ≤ p.baseWidth) :
    2 ^ p.pyramid_index ≤ p.baseWidth / p.shape1 ∧
    p.baseWidth / p.shape1 < 2 ^ (p.pyramid_index + 1) := by
  have hpos : 1 ≤ p.baseWidth / p.shape1 := (Nat.one_le_div_iff hw).mpr hb
  have hn : p.baseWidth / p.shape1 ≠ 0 := by omega
  rw [PhillipsPage.pyramid_index]
  constructor
  · exact (Nat.le_log2 hn).mp le_rfl
  · by_contra hlt
    push_neg at hlt
    have := (Nat.le_log2 hn).mpr hlt
    omega

/-- Witness for C4's amended theorem at `pageC4` (`1000 / 333 = 3`,
`2 ^ 1 ≤ 3 < 2 ^ 2`). -/
theorem pyramid_index_floor_spec_witness :
    (0 < pageC4.shape1 ∧ pageC4.shape1 ≤ pageC4.baseWidth) ∧
    (2 ^ pageC4.pyramid_index ≤ pageC4.baseWidth / pageC4.shape1 ∧
     pageC4.baseWidth / pageC4.shape1 < 2 ^ (pageC4.pyramid_index + 1)) :=
  ⟨⟨by decide, by decide⟩,
   pyramid_index_floor_spec pageC4 (by decide) (by decide)⟩

/-- C5 (counterexample): on the concrete 2×2-grid `pageA`, requesting
`x = columns = 2` (coordinate `(2, 0)`) does not raise: the unchecked
`frame_index = 0 * 2 + 2 = 2` addresses the stored frame of tile `(0, 1)`
and its patched bytes are returned. -/
theorem get_tile_oob_cex :
    pageA.tiled_size = (2, 2) ∧
    pageA.get_tile (2, 0) = Except.ok [77, 255, 218] :=
  ⟨rfl, rfl⟩

/-- C5 (amended): `get_tile` performs no bounds validation — no tile
coordinate, in or out of the grid, ever produces the out-of-bounds error;
out-of-grid coordinates follow the same `frame_index` path as any other. -/
theorem get_tile_never_out_of_bounds (p : PhillipsPage) (pos : Nat × Nat) :
    p.get_tile pos ≠ Except.error TileError.outOfBounds := by
  rw [PhillipsPage.get_tile]
  split
  · rw [PhillipsPage.blank_tile]
    cases findNonzero p.databytecounts <;> simp
  · simp

/-- C6 (counterexample): on the marker-free frame `[1, 2, 3]` the patcher
does not fail: Python's `find` returns `-1` and the stream
`frame[0:-1] ++ jpegtables[2:-2] ++ frame[-1:] = [1, 2, 77, 3]` is
returned. -/
theorem add_header_missing_marker_cex :
    findSOS [1, 2, 3] = none ∧
    add_header [255, 216, 77, 255, 217] [1, 2, 3] = [1, 2, 77, 3] :=
  ⟨rfl, rfl⟩

/-- C6 (amended): on a frame with no start-of-scan marker the patcher
raises nothing; `find` yields `-1`, so it returns
`frame[0:-1] ++ jpegtables[2:-2] ++ frame[-1:]`. -/
theorem add_header_missing_marker_spec (jpegtables frame : List Nat)
    (h : ∀ i, i < frame.length →
      ¬(frame[i]? = some 255 ∧ frame[i + 1]? = some 218)) :
    add_header jpegtables frame =
      frame.dropLast ++ ((jpegtables.drop 2).dropLast.dropLast) ++
        frame.drop (frame.length - 1) := by
  rw [add_header, findSOS_eq_none frame h]

/-- Witness for C6's amended theorem at frame `[1, 2, 3]`. -/
theorem add_header_missing_marker_spec_witness :
    (∀ i, i < ([1, 2, 3] : List Nat).length →
      ¬(([1, 2, 3] : List Nat)[i]? = some 255 ∧
        ([1, 2, 3] : List Nat)[i + 1]? = some 218)) ∧
    add_header [255, 216, 77, 255, 217] [1, 2, 3] =
      ([1, 2, 3] : List Nat).dropLast ++
        ((([255, 216, 77, 255, 217] : List Nat).drop 2).dropLast.dropLast) ++
        ([1, 2, 3] : List Nat).drop (([1, 2, 3] : List Nat).length - 1) :=
  ⟨by decide,
   add_header_missing_marker_spec [255, 216, 77, 255, 217] [1, 2, 3] (by decide)⟩

/-- C7: the SVS colorspace-fix patcher returns exactly
`jpegtables[0:-2]`, then the fixed 16-byte marker
`FF EE 00 0E 41 64 6F 62 65 00 64 80 00 00 00 00`, then `frame[2:]`. -/
theorem svs_add_jpeg_tables_spec (jpegtables frame : List Nat) :
    svs_add_jpeg_tables jpegtables frame =
      jpegtables.take (jpegtables.length - 2) ++
        [0xFF, 0xEE, 0x00, 0x0E, 0x41, 0x64, 0x6F, 0x62,
         0x65, 0x00, 0x64, 0x80, 0x00, 0x00, 0x00, 0x00] ++
        frame.drop 2 := by
  rw [svs_add_jpeg_tables]
  congr 2
  rw [List.dropLast_eq_take, List.dropLast_eq_take, List.take_take,
    List.length_take]
  congr 1
  omega

/-- C8: if every frame byte count of a page is zero, `get_tile` errs (the
no-valid-frame condition) on any coordinate; otherwise the blank tile is
synthesized from the frame at the smallest index with non-zero count. -/
theorem blank_tile_spec (p : PhillipsPage) :
    ((∀ c ∈ p.databytecounts, c = 0) →
      ∀ pos : Nat × Nat, p.get_tile pos = Except.error TileError.noValidFrame) ∧
    (∀ i : Nat, p.databytecounts.getD i 0 ≠ 0 →
      (∀ j, j < i → p.databytecounts.getD j 0 = 0) →
      p.blank_tile =
        Except.ok (p.fill (add_header p.jpegtables (p.read_frame i)))) := by
  constructor
  · intro hall pos
    have hblank : p.blank_tile = Except.error TileError.noValidFrame := by
      rw [PhillipsPage.blank_tile, findNonzero_eq_none _ hall]
    rw [PhillipsPage.get_tile, if_pos, hblank]
    by_cases hfi : pos.2 * p.tiled_size.1 + pos.1 < p.databytecounts.length
    · right
      rw [List.getD_eq_getElem _ _ hfi]
      exact hall _ (List.getElem_mem hfi)
    · left
      omega
  · intro i hi hj
    rw [PhillipsPage.blank_tile, findNonzero_of_first _ i hi hj]

/-- Witness for C8: the all-sparse `pageZero` errs on `(0, 0)`, and
`pageB` (first frame sparse, second valid) builds its blank tile from
frame 1. -/
theorem blank_tile_spec_witness :
    (∀ c ∈ pageZero.databytecounts, c = 0) ∧
    pageZero.get_tile (0, 0) = Except.error TileError.noValidFrame ∧
    pageB.databytecounts.getD 1 0 ≠ 0 ∧
    pageB.blank_tile =
      Except.ok (pageB.fill (add_header pageB.jpegtables (pageB.read_frame 1))) :=
  ⟨by decide,
   (blank_tile_spec pageZero).1 (by decide) (0, 0),
   by decide,
   (blank_tile_spec pageB).2 1 (by decide) (by decide)⟩

/-- C9 (counterexample): on `pageC9`, the batch fetch over the single
coordinate `(0, 0)` produces the element `[[77, 255, 218]]` — the
one-element list wrapping the tile bytes — while the tile bytes themselves
are `[77, 255, 218]`: the produced element is a one-item sequence, not the
three-byte tile stream the claim says it is. -/
theorem get_tiles_wrapped_cex :
    get_tiles pageC9 [(0, 0)] = [Except.ok [[77, 255, 218]]] ∧
    pageC9.get_tile (0, 0) = Except.ok [77, 255, 218] ∧
    ([[77, 255, 218]] : List (List Nat)).length = 1 ∧
    ([77, 255, 218] : List Nat).length = 3 :=
  ⟨rfl, rfl, rfl, rfl⟩

/-- C9 (amended): over `n` coordinates on which every individual fetch
succeeds, `get_tiles` produces exactly `n` elements in request order, the
`i`-th element being the one-element list containing the tile bytes of the
`i`-th coordinate. -/
theorem get_tiles_spec (p : PhillipsPage) (tiles : List (Nat × Nat))
    (hok : ∀ t ∈ tiles, exceptIsOk (p.get_tile t) = true) :
    (get_tiles p tiles).length = tiles.length ∧
    ∀ i, (hi : i < tiles.length) →
      ∃ b : List Nat, p.get_tile tiles[i] = Except.ok b ∧
        (get_tiles p tiles)[i]? = some (Except.ok [b]) := by
  constructor
  · simp [get_tiles]
  · intro i hi
    have hmem : tiles[i] ∈ tiles := List.getElem_mem hi
    have hok' := hok _ hmem
    cases hgt : p.get_tile tiles[i] with
    | error e => rw [hgt] at hok'; simp [exceptIsOk] at hok'
    | ok b =>
      refine ⟨b, rfl, ?_⟩
      rw [get_tiles, List.getElem?_map, List.getElem?_eq_getElem hi,
        Option.map_some', hgt]
      rfl

/-- Witness for C9's amended theorem: one coordinate on `pageC9`. -/
theorem get_tiles_spec_witness :
    (∀ t ∈ [((0 : Nat), (0 : Nat))], exceptIsOk (pageC9.get_tile t) = true) ∧
    (get_tiles pageC9 [(0, 0)]).length = 1 ∧
    (∃ b : List Nat, pageC9.get_tile (0, 0) = Except.ok b ∧
      (get_tiles pageC9 [(0, 0)])[0]? = some (Except.ok [b])) := by
  refine ⟨by decide, ?_, ?_⟩
  · simpa using (get_tiles_spec pageC9 [(0, 0)] (by decide)).1
  · simpa using (get_tiles_spec pageC9 [(0, 0)] (by decide)).2 0 (by decide)

/-- C10: for every constructed tiled page of either vendor variant, the
`pixel_spacing` accessor (documented mm per pixel) returns exactly the
`mpp` accessor's value (documented um per pixel) multiplied by 1000, in
each component. -/
theorem pixel_spacing_ratio_spec (pp : PhillipsPage) (sp : SvsPage) :
    pp.pixel_spacing.w = pp.mpp.w * 1000 ∧
    pp.pixel_spacing.h = pp.mpp.h * 1000 ∧
    sp.pixel_spacing.w = sp.mpp.w * 1000 ∧
    sp.pixel_spacing.h = sp.mpp.h * 1000 :=
  ⟨rfl, rfl, rfl, rfl⟩

end Opentile
